import Mathlib

/-!
Shallow embedding of `src/dobishem/storage.py` ("John Sturdy's storage utils").

The module reads and writes CSV/JSON/YAML files, offers a file-based
memoization helper and a freshness-gated combiner.  The embedding models the
filesystem as an association list from path to (modification time, decoded
content), and models each Python function as written in the source, including
its bugs:

* `read_csv` refers to an undefined variable `result` (NameError);
* `read_yaml` calls `yaml.safeload`, which does not exist (AttributeError);
* `open_for_write` passes the invalid keyword `exists_ok` to `os.makedirs`
  (TypeError);
* `write_csv`'s body contains a bare `else None` inside parentheses
  (line 86), which is a Python syntax error;
* `write_json` / `write_yaml` call `json.dump` / `yaml.dump` with a single
  argument, the output stream (TypeError / serialization failure);
* `load` and `save` index the `READERS` / `WRITERS` dictionaries with the
  whole `(root, ext)` tuple returned by `os.path.splitext`, while the
  dictionaries are keyed by bare strings such as `"csv"` (KeyError);
* `combined` subscripts the function object `load` (`load[origin]`) instead
  of calling it (TypeError);
* `modified`, `function_cached_with_file` and the glob in
  `most_recently_modified` use the raw filename without `_expand`.
-/

namespace Storage

/-- Errors a call can surface.  The first group are the Python exceptions the
embedded code can actually raise; the last four are the error taxonomy named
by the specification (§7: `MissingFileError`, `UnsupportedFormatError`,
`NotFoundError`, `MalformedContentError`), present so that spec-level claims
are statable; the embedded code never produces them. -/
inductive PyError : Type where
  | fileNotFoundError
  | keyError
  | typeError
  | indexError
  | nameError
  | attributeError
  | valueError
  | syntaxError
  | representerError
  | missingFileError
  | unsupportedFormatError
  | notFoundError
  | malformedContentError
deriving DecidableEq, Repr

/-- A Python dictionary key as used around `READERS`/`WRITERS`: either a plain
string (the keys of the dictionaries) or a pair of strings (the tuple
`os.path.splitext(filename)` that `load`/`save` use for the lookup). -/
inductive PyKey : Type where
  | str (s : String)
  | pair (a b : String)
deriving DecidableEq, Repr

/-- Equality test of Python dictionary keys: a tuple never equals a string. -/
def PyKey.beq : PyKey → PyKey → Bool
  | .str a, .str b => a == b
  | .pair a b, .pair c d => a == c && b == d
  | _, _ => false

instance : BEq PyKey := ⟨PyKey.beq⟩

/-- Python `d[k]` on an association-list model of a dictionary: the first
binding of the key, otherwise KeyError. -/
def dictGet {β : Type} (d : List (PyKey × β)) (k : PyKey) : Except PyError β :=
  match d.find? (fun kv => kv.1 == k) with
  | some kv => .ok kv.2
  | none => .error .keyError

/-- `str.rfind(c)`: index of the last occurrence of the character, `-1` when
absent. -/
def rfindIdx (c : Char) (cs : List Char) : Int :=
  (cs.foldl (fun (acc : Int × Int) x =>
      (if x == c then acc.2 else acc.1, acc.2 + 1)) (-1, 0)).1

/-- `os.path.splitext`: split off the extension at the last dot of the final
path component, but only if some non-dot character stands between the last
separator and that dot (so `".bashrc"` keeps an empty extension).  The
extension keeps its leading dot, exactly as in Python. -/
def splitext (p : String) : String × String :=
  let cs := p.toList
  let sepIndex := rfindIdx '/' cs
  let dotIndex := rfindIdx '.' cs
  if dotIndex > sepIndex then
    if ((cs.drop (sepIndex + 1).toNat).take (dotIndex - sepIndex - 1).toNat).any
        (fun x => x ≠ '.') then
      ((cs.take dotIndex.toNat).asString, (cs.drop dotIndex.toNat).asString)
    else (p, "")
  else (p, "")

/-- The filesystem and process environment a call runs against.  `entries`
maps a (fully expanded) path to its modification time and, when the file's
bytes decode in the format a reader would use, the decoded content `some v`;
`none` marks a file whose decode fails (e.g. truncated).  `glob` models
`glob.glob`, `expandvars` models `os.path.expandvars`, `home` is the
invoking user's home directory for `os.path.expanduser`, and `clock` is the
modification time a write would stamp. -/
structure FS (α : Type) : Type where
  entries : List (String × Nat × Option α)
  glob : String → List String
  expandvars : String → String
  home : String
  clock : Nat

/-- `os.path.expanduser`: replace a leading `~` (bare, or followed by a
separator) by the home directory; the `~user` form is not used by this
repository and is not modelled. -/
def expanduser (home : String) (path : String) : String :=
  match path.toList with
  | ['~'] => home
  | '~' :: '/' :: rest => home ++ ('/' :: rest).asString
  | _ => path

/-- `_expand(filename)`: `os.path.expandvars(os.path.expanduser(filename))`. -/
def _expand {α : Type} (fs : FS α) (filename : String) : String :=
  fs.expandvars (expanduser fs.home filename)

/-- The entry stored at a path, if any. -/
def findEntry {α : Type} (fs : FS α) (path : String) : Option (Nat × Option α) :=
  (fs.entries.find? (fun e => e.1 == path)).map (fun e => e.2)

/-- `os.path.exists(path)` on the model (no expansion: the callers in the
source pass the raw name). -/
def pathExists {α : Type} (fs : FS α) (path : String) : Bool :=
  (findEntry fs path).isSome

/-- `os.path.getmtime(path)`: modification time, `FileNotFoundError` (an
`OSError`) when the path does not exist.  No expansion happens here. -/
def getmtime {α : Type} (fs : FS α) (path : String) : Except PyError Nat :=
  match findEntry fs path with
  | some e => .ok e.1
  | none => .error .fileNotFoundError

/-- Store an entry at a path, replacing an existing one. -/
def setEntry {α : Type} (fs : FS α) (path : String) (mtime : Nat)
    (content : Option α) : FS α :=
  { fs with entries :=
      (path, mtime, content) ::
        fs.entries.filter (fun e => ¬ (e.1 == path)) }

/-- `open_for_read(filename)`: opens `open(_expand(filename))`; the "stream"
is modelled by the decoded content the file holds (`none` when the bytes do
not decode).  Raises `FileNotFoundError` when the expanded path is absent. -/
def open_for_read {α : Type} (fs : FS α) (filename : String) :
    Except PyError (Option α) :=
  match findEntry fs (_expand fs filename) with
  | some e => .ok e.2
  | none => .error .fileNotFoundError

/-- `open_for_write(filename)`: the source calls
`os.makedirs(os.path.dirname(full_name), exists_ok=True)`; `exists_ok` is not
a keyword `os.makedirs` accepts (the real one is `exist_ok`), so the call
raises TypeError before any file is opened. -/
def open_for_write {α : Type} (fs : FS α) (filename : String) :
    Except PyError Unit × FS α :=
  (.error .typeError, fs)

/-- `read_csv(filename)` with the default arguments used by
`default_read_csv`: the file is opened (FileNotFoundError when absent) and its
rows are read, but the final `return` expression evaluates
`isinstance(result, dict)` where no variable `result` was ever assigned on
this path, so the call raises NameError. -/
def read_csv {α : Type} (fs : FS α) (filename : String) : Except PyError α :=
  match open_for_read fs filename with
  | .error e => .error e
  | .ok _ => .error .nameError

/-- `default_read_csv(filename)` = `read_csv(filename, key_column='Date')`. -/
def default_read_csv {α : Type} (fs : FS α) (filename : String) :
    Except PyError α :=
  read_csv fs filename

/-- `read_json(filename)`: open and `json.load`; a file whose bytes do not
decode raises a `json.JSONDecodeError` (a ValueError). -/
def read_json {α : Type} (fs : FS α) (filename : String) : Except PyError α :=
  match open_for_read fs filename with
  | .error e => .error e
  | .ok (some v) => .ok v
  | .ok none => .error .valueError

/-- `read_yaml(filename)`: the file is opened, then `yaml.safeload` is looked
up — the `yaml` module has no attribute `safeload` (the real name is
`safe_load`), so the call raises AttributeError. -/
def read_yaml {α : Type} (fs : FS α) (filename : String) : Except PyError α :=
  match open_for_read fs filename with
  | .error e => .error e
  | .ok _ => .error .attributeError

/-- `write_csv`: its body is not syntactically valid Python — line 86 reads
`headers = ( else None)`, a bare `else` inside parentheses — so the module
cannot even be imported; the call is modelled as a SyntaxError with the
filesystem untouched.  (Its well-formed subexpressions, the `fieldnames`
computation and the row sort, are modelled separately below.) -/
def write_csv {α : Type} (fs : FS α) (filename : String) (data : α) :
    Except PyError α × FS α :=
  (.error .syntaxError, fs)

/-- `default_write_csv(filename, data)` =
`write_csv(filename, data, sort_column="Date")`. -/
def default_write_csv {α : Type} (fs : FS α) (filename : String) (data : α) :
    Except PyError α × FS α :=
  write_csv fs filename data

/-- `write_json(filename, data)`: the source opens the stream with
`open_for_read(filename, 'w')`, i.e. `open(_expand(filename), 'w')`, which
truncates the file; then `json.dump(outstream)` is missing its mandatory
second argument and raises TypeError, so `return data` is never reached. -/
def write_json {α : Type} (fs : FS α) (filename : String) (data : α) :
    Except PyError α × FS α :=
  (.error .typeError, setEntry fs (_expand fs filename) fs.clock none)

/-- `write_yaml(filename, data)`: like `write_json`, the stream is opened via
`open_for_read(filename, 'w')` (truncating the file) and `yaml.dump` is
applied to the stream object itself, which the YAML representer cannot
serialize. -/
def write_yaml {α : Type} (fs : FS α) (filename : String) (data : α) :
    Except PyError α × FS α :=
  (.error .representerError, setEntry fs (_expand fs filename) fs.clock none)

/-- The `READERS` dictionary: extension string to reader function. -/
def READERS (α : Type) :
    List (PyKey × (FS α → String → Except PyError α)) :=
  [(.str "csv", default_read_csv),
   (.str "json", read_json),
   (.str "yaml", read_yaml)]

/-- The `WRITERS` dictionary: extension string to writer function. -/
def WRITERS (α : Type) :
    List (PyKey × (FS α → String → α → Except PyError α × FS α)) :=
  [(.str "csv", default_write_csv),
   (.str "json", write_json),
   (.str "yaml", write_yaml)]

/-- `load(filename)` = `READERS[os.path.splitext(filename)](filename)`: the
dictionary, keyed by bare strings, is indexed with the whole
`(root, extension)` tuple. -/
def load {α : Type} (fs : FS α) (filename : String) : Except PyError α :=
  match dictGet (READERS α) (.pair (splitext filename).1 (splitext filename).2) with
  | .ok r => r fs filename
  | .error e => .error e

/-- `save(filename, data)` = `WRITERS[os.path.splitext(filename)](filename, data)`. -/
def save {α : Type} (fs : FS α) (filename : String) (data : α) :
    Except PyError α × FS α :=
  match dictGet (WRITERS α) (.pair (splitext filename).1 (splitext filename).2) with
  | .ok w => w fs filename data
  | .error e => (.error e, fs)

/-- `function_cached_with_file(function, filename)`: note that the existence
test receives the raw, unexpanded filename, as in the source. -/
def function_cached_with_file {α : Type} (fs : FS α) (function : Unit → α)
    (filename : String) : Except PyError α × FS α :=
  if pathExists fs filename then (load fs filename, fs)
  else save fs filename (function ())

/-- `modified(filename)` = `os.path.getmtime(filename)`: the raw filename is
passed straight to the timestamp query, without `_expand`. -/
def modified {α : Type} (fs : FS α) (filename : String) : Except PyError Nat :=
  getmtime fs filename

/-- A Python comprehension / map over a fallible element computation: the
first element that raises aborts the whole computation. -/
def mapExcept {σ β : Type} (f : σ → Except PyError β) :
    List σ → Except PyError (List β)
  | [] => .ok []
  | x :: xs =>
    match f x with
    | .error e => .error e
    | .ok y =>
      match mapExcept f xs with
      | .error e => .error e
      | .ok ys => .ok (y :: ys)

/-- Insert an element into a list in front of the first element it compares
`le` to (the insertion step of a stable ascending sort). -/
def insertLe {β : Type} (le : β → β → Bool) (x : β) : List β → List β
  | [] => [x]
  | y :: ys => if le x y then x :: y :: ys else y :: insertLe le x ys

/-- Stable ascending insertion sort, modelling Python's stable `sorted`. -/
def sortLe {β : Type} (le : β → β → Bool) : List β → List β
  | [] => []
  | x :: xs => insertLe le x (sortLe le xs)

/-- `in_modification_order(filenames)` = `sorted(filenames, key=modified)`:
CPython's `sorted` first evaluates the key for every element, in order — so a
missing file raises `FileNotFoundError` from `modified` before sorting — then
stably sorts the (key, element) decorations by key. -/
def in_modification_order {α : Type} (fs : FS α) (filenames : List String) :
    Except PyError (List String) :=
  match mapExcept (fun f => (modified fs f).map (fun t => (t, f))) filenames with
  | .error e => .error e
  | .ok keyed =>
    .ok ((sortLe (fun a b => Nat.ble a.1 b.1) keyed).map (fun p => p.2))

/-- The argument of `most_recently_modified`: a glob pattern string or an
explicit list of filenames. -/
inductive FilesArg : Type where
  | str (pattern : String)
  | list (names : List String)

/-- `most_recently_modified(filenames)`: glob a string argument (the raw
pattern, unexpanded), sort by modification time, take the last element;
`[-1]` on an empty list raises IndexError. -/
def most_recently_modified {α : Type} (fs : FS α) (arg : FilesArg) :
    Except PyError String :=
  let filenames :=
    match arg with
    | .str pattern => fs.glob pattern
    | .list names => names
  match in_modification_order fs filenames with
  | .error e => .error e
  | .ok sortedNames =>
    match sortedNames.getLast? with
    | some x => .ok x
    | none => .error .indexError

/-- The expression `load[origin]` on line 192 of the source: `load` is a
function object, and subscripting a function raises TypeError, whatever the
origin is. -/
def load_subscript {ρ : Type} (origin : String) : Except PyError (List ρ) :=
  .error .typeError

/-- `combined(destination, combiner, origins)`: evaluate the freshness
condition — `modified(destination)` first, then
`modified(most_recently_modified(origins))`, where iterating the `origins`
dictionary yields its keys in insertion order — and then either regenerate
(evaluating `combiner([[converter(entry) for entry in load[origin]] ...])`
before `save` is called) or re-load the destination. -/
def combined {α ρ : Type} (fs : FS α) (destination : String)
    (combiner : List (List ρ) → α) (origins : List (String × (ρ → ρ))) :
    Except PyError α × FS α :=
  match modified fs destination with
  | .error e => (.error e, fs)
  | .ok destinationTime =>
    match most_recently_modified fs (.list (origins.map (fun o => o.1))) with
    | .error e => (.error e, fs)
    | .ok freshest =>
      match modified fs freshest with
      | .error e => (.error e, fs)
      | .ok originTime =>
        if destinationTime < originTime then
          match mapExcept
              (fun oc => (load_subscript oc.1).map
                (fun entries => entries.map oc.2)) origins with
          | .error e => (.error e, fs)
          | .ok groups => save fs destination (combiner groups)
        else (load fs destination, fs)

/-- A CSV row as `csv.DictWriter` sees it: an ordered string-keyed mapping. -/
abbrev Row : Type := List (String × String)

/-- Python string comparison: lexicographic by code point. -/
def charListLe : List Char → List Char → Bool
  | [], _ => true
  | _ :: _, [] => false
  | a :: as, b :: bs =>
    if a < b then true else if b < a then false else charListLe as bs

/-- `a <= b` on Python strings. -/
def strLe (a b : String) : Bool :=
  charListLe a.toList b.toList

/-- Python `set(s)` for a string `s`: the set of its characters (as one-char
strings; the set is represented by a duplicate-free list). -/
def pySetOfString (s : String) : List String :=
  (s.toList.map (fun c => String.singleton c)).dedup

/-- `set().union(*(set(row.keys()) for row in rows))`: the union of all the
rows' key sets. -/
def unionKeys (rows : List Row) : List String :=
  ((rows.map (fun r => r.map (fun kv => kv.1))).flatten).dedup

/-- The `fieldnames` argument built on lines 91–95 of the source:
`[sort_column] + sorted(union_of_keys - set(sort_column))`.  Note that
`set(sort_column)` is the set of the *characters* of the sort column's name,
so the sort column itself is not removed from the remaining fields. -/
def csvDictWriterFieldnames (sort_column : String) (rows : List Row) :
    List String :=
  sort_column ::
    sortLe strLe
      ((unionKeys rows).filter (fun k => ¬ (k ∈ pySetOfString sort_column)))

/-- Python `row[k]` on a dictionary row: KeyError when the key is absent. -/
def rowGet (row : Row) (k : String) : Except PyError String :=
  match row.find? (fun kv => kv.1 == k) with
  | some kv => .ok kv.2
  | none => .error .keyError

/-- The row sort on line 88 of the source:
`sorted(rows, key=lambda row: row[sort_column])` — decorate each row with its
sort-column value (KeyError when a row lacks it), stably sort by that value,
undecorate. -/
def csvSortRows (sort_column : String) (rows : List Row) :
    Except PyError (List Row) :=
  match mapExcept (fun r => (rowGet r sort_column).map (fun v => (v, r))) rows with
  | .error e => .error e
  | .ok keyed =>
    .ok ((sortLe (fun a b => strLe a.1 b.1) keyed).map (fun p => p.2))

/-! ### Helper lemmas -/

theorem load_eq {α : Type} (fs : FS α) (filename : String) :
    load fs filename = .error .keyError := rfl

theorem save_eq {α : Type} (fs : FS α) (filename : String) (data : α) :
    save fs filename data = (.error .keyError, fs) := rfl

theorem mem_insertLe {β : Type} (le : β → β → Bool) (x a : β) :
    ∀ l : List β, a ∈ insertLe le x l ↔ a = x ∨ a ∈ l := by
  intro l
  induction l with
  | nil => simp [insertLe]
  | cons y ys ih =>
      simp only [insertLe]
      by_cases h : le x y = true
      · simp [h, List.mem_cons]
      · simp only [Bool.not_eq_true] at h
        simp [h, List.mem_cons, ih]
        tauto

theorem length_insertLe {β : Type} (le : β → β → Bool) (x : β) :
    ∀ l : List β, (insertLe le x l).length = l.length + 1 := by
  intro l
  induction l with
  | nil => rfl
  | cons y ys ih =>
      simp only [insertLe]
      by_cases h : le x y = true
      · simp [h]
      · simp only [Bool.not_eq_true] at h
        simp [h, ih]

theorem length_sortLe {β : Type} (le : β → β → Bool) :
    ∀ l : List β, (sortLe le l).length = l.length := by
  intro l
  induction l with
  | nil => rfl
  | cons y ys ih => simp [sortLe, length_insertLe, ih]

theorem mem_sortLe {β : Type} (le : β → β → Bool) (a : β) :
    ∀ l : List β, a ∈ sortLe le l ↔ a ∈ l := by
  intro l
  induction l with
  | nil => simp [sortLe]
  | cons y ys ih => simp [sortLe, mem_insertLe, ih]

theorem pairwise_insertLe {β : Type} (le : β → β → Bool)
    (htot : ∀ a b, le a b = true ∨ le b a = true)
    (htrans : ∀ a b c, le a b = true → le b c = true → le a c = true)
    (x : β) :
    ∀ l : List β, l.Pairwise (fun a b => le a b = true) →
      (insertLe le x l).Pairwise (fun a b => le a b = true) := by
  intro l
  induction l with
  | nil => intro _; simp [insertLe]
  | cons y ys ih =>
      intro hp
      rcases List.pairwise_cons.mp hp with ⟨hy, hys⟩
      simp only [insertLe]
      by_cases h : le x y = true
      · rw [if_pos h]
        refine List.pairwise_cons.mpr ⟨?_, hp⟩
        intro b hb
        rcases List.mem_cons.mp hb with hbx | hb
        · rw [hbx]; exact h
        · exact htrans x y b h (hy b hb)
      · rw [if_neg h]
        simp only [Bool.not_eq_true] at h
        refine List.pairwise_cons.mpr ⟨?_, ih hys⟩
        intro b hb
        rcases (mem_insertLe le x b ys).mp hb with hbx | hb
        · rw [hbx]
          rcases htot x y with hxy | hyx
          · rw [hxy] at h; exact absurd h (by simp)
          · exact hyx
        · exact hy b hb

theorem pairwise_sortLe {β : Type} (le : β → β → Bool)
    (htot : ∀ a b, le a b = true ∨ le b a = true)
    (htrans : ∀ a b c, le a b = true → le b c = true → le a c = true) :
    ∀ l : List β, (sortLe le l).Pairwise (fun a b => le a b = true) := by
  intro l
  induction l with
  | nil => simp [sortLe]
  | cons y ys ih => exact pairwise_insertLe le htot htrans y _ ih

theorem getLast?_mem {β : Type} :
    ∀ {l : List β} {z : β}, l.getLast? = some z → z ∈ l := by
  intro l
  induction l with
  | nil => intro z h; simp at h
  | cons a t ih =>
      intro z h
      cases t with
      | nil =>
          simp only [List.getLast?_singleton, Option.some.injEq] at h
          simp [h]
      | cons b t' =>
          rw [List.getLast?_cons_cons] at h
          exact List.mem_cons_of_mem a (ih h)

theorem getLast?_isSome_of_ne_nil {β : Type} :
    ∀ {l : List β}, l ≠ [] → ∃ z, l.getLast? = some z := by
  intro l
  induction l with
  | nil => intro h; exact absurd rfl h
  | cons a t ih =>
      intro _
      cases t with
      | nil => exact ⟨a, rfl⟩
      | cons b t' =>
          rcases ih (by simp) with ⟨z, hz⟩
          exact ⟨z, by rw [List.getLast?_cons_cons]; exact hz⟩

theorem pairwise_getLast_le {β : Type} {P : β → β → Prop} :
    ∀ {l : List β} {z : β}, l.Pairwise P → l.getLast? = some z →
      ∀ x ∈ l, P x z ∨ x = z := by
  intro l
  induction l with
  | nil => intro z _ _ x hx; simp at hx
  | cons a t ih =>
      intro z hp hz x hx
      rcases List.pairwise_cons.mp hp with ⟨ha, ht⟩
      cases t with
      | nil =>
          simp only [List.getLast?_singleton, Option.some.injEq] at hz
          rw [List.mem_singleton.mp hx, ← hz]
          exact Or.inr rfl
      | cons b t' =>
          rw [List.getLast?_cons_cons] at hz
          rcases List.mem_cons.mp hx with rfl | hx
          · exact Or.inl (ha z (getLast?_mem hz))
          · exact ih ht hz x hx

theorem mapExcept_length {σ β : Type} (f : σ → Except PyError β) :
    ∀ (l : List σ) (ys : List β), mapExcept f l = .ok ys →
      ys.length = l.length := by
  intro l
  induction l with
  | nil =>
      intro ys h
      simp only [mapExcept, Except.ok.injEq] at h
      simp [← h]
  | cons x xs ih =>
      intro ys h
      simp only [mapExcept] at h
      cases hfx : f x with
      | error e => rw [hfx] at h; exact absurd h (by simp)
      | ok y =>
          rw [hfx] at h
          cases hxs : mapExcept f xs with
          | error e => rw [hxs] at h; exact absurd h (by simp)
          | ok ys' =>
              rw [hxs] at h
              simp only [Except.ok.injEq] at h
              simp [← h, ih ys' hxs]

theorem mapExcept_zip {σ β : Type} (f : σ → Except PyError β) :
    ∀ (l : List σ) (ys : List β), mapExcept f l = .ok ys →
      ∀ p ∈ ys.zip l, f p.2 = .ok p.1 := by
  intro l
  induction l with
  | nil =>
      intro ys h p hp
      simp only [mapExcept, Except.ok.injEq] at h
      rw [← h] at hp
      simp at hp
  | cons x xs ih =>
      intro ys h p hp
      simp only [mapExcept] at h
      cases hfx : f x with
      | error e => rw [hfx] at h; exact absurd h (by simp)
      | ok y =>
          rw [hfx] at h
          cases hxs : mapExcept f xs with
          | error e => rw [hxs] at h; exact absurd h (by simp)
          | ok ys' =>
              rw [hxs] at h
              simp only [Except.ok.injEq] at h
              rw [← h] at hp
              simp only [List.zip_cons_cons, List.mem_cons] at hp
              rcases hp with rfl | hp
              · exact hfx
              · exact ih ys' hxs p hp

theorem mapExcept_decorate {σ β : Type} (g : σ → Except PyError β) :
    ∀ (l : List σ) (ys : List β), mapExcept g l = .ok ys →
      mapExcept (fun s => (g s).map (fun y => (y, s))) l = .ok (ys.zip l) := by
  intro l
  induction l with
  | nil =>
      intro ys h
      simp only [mapExcept, Except.ok.injEq] at h
      simp [mapExcept, ← h]
  | cons x xs ih =>
      intro ys h
      simp only [mapExcept] at h
      cases hgx : g x with
      | error e => rw [hgx] at h; exact absurd h (by simp)
      | ok y =>
          rw [hgx] at h
          cases hxs : mapExcept g xs with
          | error e => rw [hxs] at h; exact absurd h (by simp)
          | ok ys' =>
              rw [hxs] at h
              simp only [Except.ok.injEq] at h
              subst h
              simp only [mapExcept, hgx, ih ys' hxs, List.zip_cons_cons]
              rfl

theorem zip_mem_left {β σ : Type} :
    ∀ (ts : List β) (ns : List σ), ts.length = ns.length →
      ∀ t ∈ ts, ∃ n, (t, n) ∈ ts.zip ns := by
  intro ts
  induction ts with
  | nil => intro ns _ t ht; simp at ht
  | cons t' ts' ih =>
      intro ns hlen t ht
      cases ns with
      | nil => simp at hlen
      | cons n' ns' =>
          simp only [List.length_cons, Nat.add_right_cancel_iff] at hlen
          rcases List.mem_cons.mp ht with rfl | ht
          · exact ⟨n', by simp⟩
          · rcases ih ns' hlen t ht with ⟨n, hn⟩
            exact ⟨n, by simp [hn]⟩

/-- The comparison used to sort (mtime, filename) decorations. -/
def mtimeLe (a b : Nat × String) : Bool := Nat.ble a.1 b.1

theorem mtimeLe_total (a b : Nat × String) :
    mtimeLe a b = true ∨ mtimeLe b a = true := by
  rcases Nat.le_total a.1 b.1 with h | h
  · exact Or.inl (Nat.ble_eq_true_of_le h)
  · exact Or.inr (Nat.ble_eq_true_of_le h)

theorem mtimeLe_trans (a b c : Nat × String) (hab : mtimeLe a b = true)
    (hbc : mtimeLe b c = true) : mtimeLe a c = true :=
  Nat.ble_eq_true_of_le
    (Nat.le_trans (Nat.le_of_ble_eq_true hab) (Nat.le_of_ble_eq_true hbc))

/-- Characterization of `most_recently_modified` over an explicit list of
names whose modification-time queries all succeed: it returns some member of
the list whose modification time bounds all the queried times. -/
theorem mrm_spec {α : Type} (fs : FS α) (names : List String) (ts : List Nat)
    (hne : names ≠ [])
    (hts : mapExcept (modified fs) names = .ok ts) :
    ∃ m tm, most_recently_modified fs (.list names) = .ok m ∧ m ∈ names ∧
      tm ∈ ts ∧ modified fs m = .ok tm ∧ ∀ t ∈ ts, t ≤ tm := by
  have hdec := mapExcept_decorate (modified fs) names ts hts
  have hlen := mapExcept_length (modified fs) names ts hts
  have hkeyedlen : (ts.zip names).length = names.length := by
    simp [List.length_zip, hlen]
  have hsortne : sortLe mtimeLe (ts.zip names) ≠ [] := by
    intro h
    have h1 := length_sortLe mtimeLe (ts.zip names)
    rw [h, hkeyedlen] at h1
    exact hne (List.eq_nil_of_length_eq_zero h1.symm)
  rcases getLast?_isSome_of_ne_nil hsortne with ⟨z, hz⟩
  have hzmem : z ∈ ts.zip names := (mem_sortLe mtimeLe z (ts.zip names)).mp
    (getLast?_mem hz)
  have hzmem' : (z.1, z.2) ∈ ts.zip names := by simpa using hzmem
  rcases List.of_mem_zip hzmem' with ⟨hz1, hz2⟩
  refine ⟨z.2, z.1, ?_, hz2, hz1, ?_, ?_⟩
  · simp only [most_recently_modified, in_modification_order, hdec]
    rw [List.getLast?_map]
    have : sortLe (fun a b => Nat.ble a.1 b.1) (ts.zip names) =
        sortLe mtimeLe (ts.zip names) := rfl
    rw [this, hz]
    rfl
  · exact mapExcept_zip (modified fs) names ts hts (z.1, z.2) hzmem'
  · intro t ht
    rcases zip_mem_left ts names hlen t ht with ⟨n, hn⟩
    have hmem : (t, n) ∈ sortLe mtimeLe (ts.zip names) :=
      (mem_sortLe mtimeLe (t, n) (ts.zip names)).mpr hn
    have hpw := pairwise_sortLe mtimeLe mtimeLe_total mtimeLe_trans (ts.zip names)
    rcases pairwise_getLast_le hpw hz (t, n) hmem with hle | heq
    · exact Nat.le_of_ble_eq_true hle
    · rw [show t = z.1 from congrArg Prod.fst heq]

/-! ### Concrete filesystems used by witnesses and counterexamples -/

/-- Files `a`, `b`, `c` with modification times 1, 3, 2. -/
def fsABC : FS Nat :=
  { entries := [("a", 1, none), ("b", 3, none), ("c", 2, none)],
    glob := fun _ => [], expandvars := fun s => s, home := "/home/user",
    clock := 100 }

/-- An empty filesystem whose glob matches nothing. -/
def fsEmptyGlob : FS Nat :=
  { entries := [], glob := fun _ => [], expandvars := fun s => s,
    home := "/home/user", clock := 0 }

/-- A filesystem holding a file at the expansion of `~/data.csv` (environment
variables are modelled as already absent: `expandvars` is the identity). -/
def fsHome : FS Nat :=
  { entries := [("/home/user/data.csv", 5, none)], glob := fun _ => [],
    expandvars := fun s => s, home := "/home/user", clock := 9 }

/-! ### Claims -/

/-- C1: the claim says that for a destination older than the newest origin,
`combined` loads every origin via the generic load facility, transforms each
record, combines, saves and returns the result.  The code's regeneration
path instead evaluates `load[origin]` — subscripting the function object
`load` — which raises TypeError before anything is loaded, combined or
written, so `combined` returns that error and leaves the filesystem
unchanged. -/
theorem c1_combined_stale_raises_typeError {α ρ : Type} (fs : FS α)
    (destination : String) (combiner : List (List ρ) → α)
    (origins : List (String × (ρ → ρ))) (td : Nat) (ts : List Nat)
    (hne : origins ≠ [])
    (hdest : modified fs destination = .ok td)
    (hts : mapExcept (modified fs) (origins.map (fun o => o.1)) = .ok ts)
    (hstale : ∃ t ∈ ts, td < t) :
    combined fs destination combiner origins = (.error .typeError, fs) := by
  have hne' : origins.map (fun o => o.1) ≠ [] := by
    intro h
    exact hne (List.map_eq_nil_iff.mp h)
  rcases mrm_spec fs _ ts hne' hts with ⟨m, tm, hmrm, _, _, hmod, hmax⟩
  rcases hstale with ⟨t, ht, hlt⟩
  have hlt' : td < tm := Nat.lt_of_lt_of_le hlt (hmax t ht)
  simp only [combined, hdest, hmrm, hmod, if_pos hlt']
  cases origins with
  | nil => exact absurd rfl hne
  | cons o os => rfl

/-- C1 witness: on the concrete filesystem `fsABC`, destination `a`
(mtime 1) is older than origin `b` (mtime 3), and `combined` raises
TypeError. -/
theorem c1_witness :
    (([(("b" : String), (id : Nat → Nat))] ≠ []) ∧
      modified fsABC "a" = .ok 1 ∧
      mapExcept (modified fsABC)
        (([(("b" : String), (id : Nat → Nat))]).map (fun o => o.1)) = .ok [3] ∧
      (∃ t ∈ [3], 1 < t)) ∧
    combined fsABC "a" (fun _ => (0 : Nat)) [("b", (id : Nat → Nat))] =
      (.error .typeError, fsABC) :=
  ⟨⟨List.cons_ne_nil _ _, rfl, rfl, ⟨3, by simp, by decide⟩⟩,
    c1_combined_stale_raises_typeError fsABC "a" (fun _ => (0 : Nat))
      [("b", (id : Nat → Nat))] 1 [3] (List.cons_ne_nil _ _) rfl rfl
      ⟨3, by simp, by decide⟩⟩

/-- C2: the claim says that for a destination not older than any origin,
`combined` performs no write and returns the destination's decoded content.
The no-write half holds, but the return half fails: the reuse path calls
`load(destination)`, and `load` always raises KeyError (the `READERS`
dictionary is indexed with the whole `os.path.splitext` tuple), so no
decoded content is ever returned. -/
theorem c2_combined_fresh_raises_keyError {α ρ : Type} (fs : FS α)
    (destination : String) (combiner : List (List ρ) → α)
    (origins : List (String × (ρ → ρ))) (td : Nat) (ts : List Nat)
    (hne : origins ≠ [])
    (hdest : modified fs destination = .ok td)
    (hts : mapExcept (modified fs) (origins.map (fun o => o.1)) = .ok ts)
    (hfresh : ∀ t ∈ ts, t ≤ td) :
    combined fs destination combiner origins = (.error .keyError, fs) := by
  have hne' : origins.map (fun o => o.1) ≠ [] := by
    intro h
    exact hne (List.map_eq_nil_iff.mp h)
  rcases mrm_spec fs _ ts hne' hts with ⟨m, tm, hmrm, _, htm, hmod, _⟩
  have hnot : ¬ (td < tm) := Nat.not_lt.mpr (hfresh tm htm)
  simp only [combined, hdest, hmrm, hmod, if_neg hnot]
  rfl

/-- C2 witness: on `fsABC`, destination `b` (mtime 3) is newer than origin
`a` (mtime 1); `combined` leaves the filesystem alone but raises KeyError
instead of returning the destination's content. -/
theorem c2_witness :
    (([(("a" : String), (id : Nat → Nat))] ≠ []) ∧
      modified fsABC "b" = .ok 3 ∧
      mapExcept (modified fsABC)
        (([(("a" : String), (id : Nat → Nat))]).map (fun o => o.1)) = .ok [1] ∧
      (∀ t ∈ [1], t ≤ 3)) ∧
    combined fsABC "b" (fun _ => (0 : Nat)) [("a", (id : Nat → Nat))] =
      (.error .keyError, fsABC) :=
  ⟨⟨List.cons_ne_nil _ _, rfl, rfl, by decide⟩,
    c2_combined_fresh_raises_keyError fsABC "b" (fun _ => (0 : Nat))
      [("a", (id : Nat → Nat))] 3 [1] (List.cons_ne_nil _ _) rfl rfl
      (by decide)⟩

/-- C3: if loading or transforming any origin fails, the destination is left
unchanged — the `save` call only begins after the combiner's argument has
been fully evaluated.  The embedding satisfies a stronger fact: `combined`
never changes the filesystem on any path (origin loading always fails, and
even the save path's writer is never reached), so in particular the
destination file is untouched whenever origin processing fails. -/
theorem c3_combined_preserves_filesystem {α ρ : Type} (fs : FS α)
    (destination : String) (combiner : List (List ρ) → α)
    (origins : List (String × (ρ → ρ))) :
    (combined fs destination combiner origins).2 = fs := by
  unfold combined
  repeat' split
  all_goals rfl

/-- C4: over a non-empty collection of paths whose modification-time queries
all succeed, `most_recently_modified` returns a member of the collection
whose modification timestamp bounds every queried timestamp. -/
theorem c4_most_recently_modified_max {α : Type} (fs : FS α)
    (names : List String) (ts : List Nat)
    (hne : names ≠ [])
    (hts : mapExcept (modified fs) names = .ok ts) :
    ∃ m tm, most_recently_modified fs (.list names) = .ok m ∧ m ∈ names ∧
      modified fs m = .ok tm ∧ ∀ t ∈ ts, t ≤ tm := by
  rcases mrm_spec fs names ts hne hts with ⟨m, tm, h1, h2, _, h4, h5⟩
  exact ⟨m, tm, h1, h2, h4, h5⟩

/-- C4 witness: over paths `a` (mtime 1), `b` (mtime 3), `c` (mtime 2) the
result is a maximal-mtime member, and concretely it is `b`. -/
theorem c4_witness :
    (((["a", "b", "c"] : List String) ≠ []) ∧
      mapExcept (modified fsABC) ["a", "b", "c"] = .ok [1, 3, 2]) ∧
    (∃ m tm, most_recently_modified fsABC (.list ["a", "b", "c"]) = .ok m ∧
      m ∈ ["a", "b", "c"] ∧ modified fsABC m = .ok tm ∧
      ∀ t ∈ [1, 3, 2], t ≤ tm) ∧
    most_recently_modified fsABC (.list ["a", "b", "c"]) = .ok "b" :=
  ⟨⟨List.cons_ne_nil _ _, rfl⟩,
    c4_most_recently_modified_max fsABC ["a", "b", "c"] [1, 3, 2]
      (List.cons_ne_nil _ _) rfl,
    rfl⟩

/-- C5 counterexample: over a glob pattern matching zero files,
`most_recently_modified` raises IndexError (from `[-1]` on the empty list),
not the NotFoundError the claim names — no such dedicated error exists in
the module. -/
theorem c5_counterexample :
    most_recently_modified fsEmptyGlob (.str "*.csv") = .error .indexError ∧
    most_recently_modified fsEmptyGlob (.str "*.csv") ≠
      .error .notFoundError :=
  ⟨rfl, fun h => PyError.noConfusion (Except.error.inj h)⟩

/-- C5 amended: for every glob pattern matching zero files,
`most_recently_modified` raises an IndexError — the module has no dedicated
NotFoundError. -/
theorem c5_amended {α : Type} (fs : FS α) (pattern : String)
    (hglob : fs.glob pattern = []) :
    most_recently_modified fs (.str pattern) = .error .indexError := by
  simp only [most_recently_modified, hglob]
  rfl

/-- C5 witness: a concrete pattern whose glob is empty raises IndexError. -/
theorem c5_witness :
    fsEmptyGlob.glob "*.yaml" = [] ∧
    most_recently_modified fsEmptyGlob (.str "*.yaml") = .error .indexError :=
  ⟨rfl, c5_amended fsEmptyGlob "*.yaml" rfl⟩

/-- C6: the claim says `load`/`save` dispatch on the extension for csv, json
and yaml, and raise UnsupportedFormatError for anything else.  In the code
every call — recognized extension or not — raises KeyError, because the
dictionaries keyed by bare strings like `"csv"` are indexed with the whole
`(root, ext)` tuple from `os.path.splitext`; no dispatch ever succeeds and
no UnsupportedFormatError is ever raised. -/
theorem c6_dispatch_always_keyError {α : Type} (fs : FS α)
    (filename : String) (data : α) :
    load fs filename = .error .keyError ∧
    (save fs filename data).1 = .error .keyError ∧
    load fs filename ≠ .error .unsupportedFormatError :=
  ⟨rfl, rfl, fun h => PyError.noConfusion (Except.error.inj h)⟩

/-- C7: the claim (and the module docstring) says `save` returns the content
passed in; in the code `save` raises KeyError on every path before any
writer runs, so it never returns anything at all. -/
theorem c7_save_never_returns_content {α : Type} (fs : FS α)
    (filename : String) (data : α) :
    (save fs filename data).1 = .error .keyError ∧
    (save fs filename data).1 ≠ .ok data :=
  ⟨rfl, fun h => Except.noConfusion h⟩

/-- C8: the claim says save-then-load round-trips content for each
recognized format; in the code `save` raises KeyError without writing
anything and a subsequent `load` raises KeyError too, so the round-trip
never returns the original content. -/
theorem c8_roundtrip_impossible {α : Type} (fs : FS α) (filename : String)
    (data : α) :
    (save fs filename data).2 = fs ∧
    load (save fs filename data).2 filename = .error .keyError ∧
    load (save fs filename data).2 filename ≠ .ok data :=
  ⟨rfl, rfl, fun h => Except.noConfusion h⟩

/-- C9: the claim says a CSV write with sort column "Date" emits the rows in
ascending Date order with "Date" first in the header and the remaining
columns alphabetical.  `write_csv` cannot run at all — its body contains the
syntax error `headers = ( else None)` — and its `fieldnames` expression
subtracts `set("Date")`, the set of characters D, a, t, e, instead of the
column name, so "Date" appears twice in the header (the row sort expression
itself is correct, as the third conjunct shows). -/
theorem c9_write_csv_broken :
    write_csv fsEmptyGlob "f.csv" (0 : Nat) =
      (.error .syntaxError, fsEmptyGlob) ∧
    csvDictWriterFieldnames "Date" [[("Date", "2021-12-31"), ("Amount", "3")]] =
      ["Date", "Amount", "Date"] ∧
    csvSortRows "Date" [[("Date", "2022-01-01")], [("Date", "2021-01-01")]] =
      .ok [[("Date", "2021-01-01")], [("Date", "2022-01-01")]] :=
  ⟨rfl, by decide, rfl⟩

/-- C10: the claim (and the module docstring) says every filename-accepting
operation, including the modification-timestamp query, expands `~` and
environment variables before touching the filesystem.  `modified` passes the
raw name straight to `os.path.getmtime`: on a filesystem where the file
exists at the expansion of `~/data.csv`, the query on the unexpanded name
fails while the query on the expanded name succeeds. -/
theorem c10_modified_does_not_expand :
    modified fsHome "~/data.csv" = .error .fileNotFoundError ∧
    _expand fsHome "~/data.csv" = "/home/user/data.csv" ∧
    getmtime fsHome (_expand fsHome "~/data.csv") = .ok 5 :=
  ⟨rfl, by decide, rfl⟩

end Storage
